import Mathlib

/-
Verification of `llama_stack/providers/utils/telemetry/trace_protocol.py`:
the value serializer (`serialize_value`) and the auto-instrumentation
binder (`trace_protocol`, `__init_subclass__`, `trace_method`, and the
three wrappers `sync_wrapper`, `async_wrapper`, `async_gen_wrapper`).

The tracing backend (`llama_stack.providers.utils.telemetry.tracing`) is
not part of the sources; following the spec it is an external collaborator
with a scoped-span interface, and a span is modelled here as the ordered
sequence of backend events the wrapper performs (open, set_attribute,
close).
-/

namespace TraceProtocol

/-- A Python runtime value, covering exactly the classes that
`serialize_value` distinguishes with its `isinstance` chain: `None`,
`bool`, `int`, `float`, `str`, pydantic `BaseModel`, `list`, `tuple`,
`set`, `dict`, `datetime`, `UUID`, and any other object.

Representation notes, matching how each value is observed by the code
under proof: a `float` is carried by its decimal rendering (`str` and
`repr` agree on floats and no claim computes with them); a `BaseModel` is
carried by its `model_dump()` field map — `model_dump()` in its default
(python) mode returns field values as-is, nested models already dumped,
so an entry may hold any value, e.g. a `datetime`; a `set` is carried in
its iteration order; `datetime`, `UUID` and fallback objects are carried
by the text their `str()` produces, which is all `serialize_value` ever
takes of them. -/
inductive Value where
  | none
  | bool (b : Bool)
  | int (n : Int)
  | float (text : String)
  | str (s : String)
  | model (dump : List (String × Value))
  | list (items : List Value)
  | tuple (items : List Value)
  | set (items : List Value)
  | dict (entries : List (Value × Value))
  | datetime (text : String)
  | uuid (text : String)
  | other (text : String)

mutual

/-- Python `repr` of a value (used by `str` on containers, which renders
elements with `repr`). String quoting is rendered with a plain single
quote; `datetime`, `UUID`, model and fallback objects render as their
carried canonical text (their exact `repr` never reaches a claim). -/
def pyRepr : Value → String
  | Value.none => "None"
  | Value.bool b => if b then "True" else "False"
  | Value.int n => toString n
  | Value.float t => t
  | Value.str s => "\x27" ++ s ++ "\x27"
  | Value.model d => pyFieldsText d
  | Value.list items => "[" ++ pyReprItems items ++ "]"
  | Value.tuple items => pyTupleText items
  | Value.set items => pySetText items
  | Value.dict entries => "\x7b" ++ pyReprPairs entries ++ "\x7d"
  | Value.datetime t => t
  | Value.uuid t => t
  | Value.other t => t

/-- Comma-separated `repr`s of the elements of a sequence. -/
def pyReprItems : List Value → String
  | [] => ""
  | [v] => pyRepr v
  | v :: rest => pyRepr v ++ ", " ++ pyReprItems rest

/-- Python `repr` of a tuple: a singleton keeps a trailing comma. -/
def pyTupleText : List Value → String
  | [] => "()"
  | [x] => "(" ++ pyRepr x ++ ",)"
  | x :: rest => "(" ++ pyRepr x ++ ", " ++ pyReprItems rest ++ ")"

/-- Python `repr` of a set: the empty set renders as `set()`. -/
def pySetText : List Value → String
  | [] => "set()"
  | x :: rest => "\x7b" ++ pyRepr x ++
    (if rest.isEmpty then "" else ", " ++ pyReprItems rest) ++ "\x7d"

/-- Comma-separated `key: value` renderings of a dict's entries. -/
def pyReprPairs : List (Value × Value) → String
  | [] => ""
  | [(k, v)] => pyRepr k ++ ": " ++ pyRepr v
  | (k, v) :: rest => pyRepr k ++ ": " ++ pyRepr v ++ ", " ++ pyReprPairs rest

/-- Comma-separated `field=value` renderings of a model's field map. -/
def pyFieldsText : List (String × Value) → String
  | [] => ""
  | [(k, v)] => k ++ "=" ++ pyRepr v
  | (k, v) :: rest => k ++ "=" ++ pyRepr v ++ ", " ++ pyFieldsText rest

end

/-- Python `str` of a value: identical to `repr` except on strings, which
render without quotes. -/
def pyStr : Value → String
  | Value.str s => s
  | v => pyRepr v

/-- Whether a dict key equals a given string key: it does exactly when it
is that string. -/
def keyMatches : Value → String → Bool
  | Value.str k', k => k' = k
  | _, _ => false

/-- Insertion of a string key into a Python dict held as an association
list in insertion order: an existing entry with an equal key keeps its
position and gets the new value (so iteration keeps the first-insertion
position and the value is last-write-wins); a new key is appended. -/
def sinsert : List (Value × Value) → String → Value → List (Value × Value)
  | [], k, v => [(Value.str k, v)]
  | (e, v') :: rest, k, v =>
    if keyMatches e k then (e, v) :: rest else (e, v') :: sinsert rest k v

/-- The dict built by a comprehension with string keys: each pair is
inserted in iteration order. -/
def dictFromPairs (ps : List (String × Value)) : List (Value × Value) :=
  ps.foldl (fun acc kv => sinsert acc kv.1 kv.2) []

/-- The entries of `model_dump()` as a Python dict: its field names as
string keys, its field values as-is. -/
def dumpEntries (d : List (String × Value)) : List (Value × Value) :=
  d.map fun kv => (Value.str kv.1, kv.2)

mutual

/-- Function `serialize_value` (trace_protocol.py, lines 19-34), branch for branch:
`None` and primitives are returned unchanged; a `BaseModel` returns its
`model_dump()` directly (no recursive serialization); `list`, `tuple` and
`set` become a list of serialized elements; a `dict` becomes
`(str(k), serialize_value(v))` for each entry, built as a fresh dict (the
comprehension evaluates the pairs in iteration order and inserts each,
which `dictFromPairs` performs after `serializePairs` lists them — the
same interleaving, since evaluating a pair does not depend on the dict
built so far); `datetime` and `UUID` become `str(value)`, and anything
else falls back to `str(value)`. -/
def serialize_value : Value → Value
  | Value.none => Value.none
  | Value.bool b => Value.bool b
  | Value.int n => Value.int n
  | Value.float t => Value.float t
  | Value.str s => Value.str s
  | Value.model d => Value.dict (dumpEntries d)
  | Value.list items => Value.list (serializeItems items)
  | Value.tuple items => Value.list (serializeItems items)
  | Value.set items => Value.list (serializeItems items)
  | Value.dict entries => Value.dict (dictFromPairs (serializePairs entries))
  | Value.datetime t => Value.str t
  | Value.uuid t => Value.str t
  | Value.other t => Value.str t

/-- Elementwise `serialize_value` over a sequence, preserving order. -/
def serializeItems : List Value → List Value
  | [] => []
  | v :: rest => serialize_value v :: serializeItems rest

/-- The pairs `(str(k), serialize_value(v))` of a dict's entries, in
iteration order. -/
def serializePairs : List (Value × Value) → List (String × Value)
  | [] => []
  | (k, v) :: rest => (pyStr k, serialize_value v) :: serializePairs rest

end

/-- Whether a value is a string (a JSON object key must be one). -/
def isStrVal : Value → Bool
  | Value.str _ => true
  | _ => false

mutual

/-- Whether a value is JSON-representable: null, booleans, numbers,
strings, arrays of JSON values, or objects with string keys and JSON
values. -/
def IsJson : Value → Bool
  | Value.none => true
  | Value.bool _ => true
  | Value.int _ => true
  | Value.float _ => true
  | Value.str _ => true
  | Value.list items => allJson items
  | Value.dict entries => allJsonPairs entries
  | Value.model _ => false
  | Value.tuple _ => false
  | Value.set _ => false
  | Value.datetime _ => false
  | Value.uuid _ => false
  | Value.other _ => false

/-- All elements of a list are JSON-representable. -/
def allJson : List Value → Bool
  | [] => true
  | v :: rest => IsJson v && allJson rest

/-- All entries of a dict have string keys and JSON-representable
values. -/
def allJsonPairs : List (Value × Value) → Bool
  | [] => true
  | (k, v) :: rest => isStrVal k && IsJson v && allJsonPairs rest

end

mutual

/-- Whether a value contains no `BaseModel` anywhere (models are the one
branch of `serialize_value` whose output is not re-serialized). -/
def ModelFree : Value → Bool
  | Value.model _ => false
  | Value.list items => allModelFree items
  | Value.tuple items => allModelFree items
  | Value.set items => allModelFree items
  | Value.dict entries => allModelFreePairs entries
  | _ => true

/-- All elements of a list are model-free. -/
def allModelFree : List Value → Bool
  | [] => true
  | v :: rest => ModelFree v && allModelFree rest

/-- All keys and values of a dict's entries are model-free. -/
def allModelFreePairs : List (Value × Value) → Bool
  | [] => true
  | (k, v) :: rest => ModelFree k && ModelFree v && allModelFreePairs rest

end

/-- A Python exception (an `Exception` subclass, the class the wrappers'
`except Exception` clauses catch), observed by its type name and its
message; `str(e)` is the message. -/
structure PyErr where
  excType : String
  msg : String

/-- The behaviour of a method body on one receiver and argument list:
either its return value or the exception it raises. (For the async
single-result wrapper this is the behaviour of awaiting the body; the
wrapper adds no suspension of its own.) -/
def Impl : Type := List Value → List (String × Value) → Except PyErr Value

/-- Modelled from the spec: the tracing backend
(`llama_stack.providers.utils.telemetry.tracing`, outside the sources) is,
per spec section 6, a scoped-span interface — `tracing.span(name, attrs)`
opens a span on entry, `span.set_attribute(key, value)` records an
attribute, and scope exit on any control path finalizes the span. A span
is therefore modelled as the ordered list of these backend events that a
wrapper performs. -/
inductive SpanEvent where
  | openSpan (name : String) (attributes : List (String × Value))
  | setAttribute (key : String) (value : Value)
  | closeSpan

/-- The values a given attribute key was set to, in event order. -/
def setValuesOf (key : String) : List SpanEvent → List Value
  | [] => []
  | SpanEvent.setAttribute k v :: rest =>
    if k = key then v :: setValuesOf key rest else setValuesOf key rest
  | _ :: rest => setValuesOf key rest

/-- What `inspect.signature` recovers of a declared method: its `__name__`
and its declared parameter names in order, the implicit receiver first.
`functools.wraps` copies these from the original onto the wrapper, and
`create_span_context` introspects the closed-over original. -/
structure MethodSig where
  name : String
  params : List String

/-- Insertion into a Python dict with string keys held as an association
list: an existing key keeps its position and gets the new value, a new
key is appended. -/
def supd : List (String × Value) → String → Value → List (String × Value)
  | [], k, v => [(k, v)]
  | (k', v') :: rest, k, v =>
    if k' = k then (k', v) :: rest else (k', v') :: supd rest k v

/-- The parameter name matched to positional argument `i` (0-based):
`param_names[i]` when it exists, else the synthetic `position_{i+1}`. -/
def positionalName (param_names : List String) (i : Nat) : String :=
  match param_names[i]? with
  | some n => n
  | Option.none => "position_" ++ toString (i + 1)

/-- The `for i, arg in enumerate(args)` loop of `create_span_context`:
each positional argument is serialized and stored under its matched
parameter name. -/
def combinedArgsPos (param_names : List String) (args : List Value) (i : Nat)
    (acc : List (String × Value)) : List (String × Value) :=
  match args with
  | [] => acc
  | a :: rest =>
    combinedArgsPos param_names rest (i + 1)
      (supd acc (positionalName param_names i) (serialize_value a))

/-- Dict `combined_args`: positional arguments first, then keyword arguments
under `str(k)` — the key itself, keyword names being strings — each value
serialized. -/
def combinedArgs (param_names : List String) (args : List Value)
    (kwargs : List (String × Value)) : List (String × Value) :=
  kwargs.foldl (fun acc kv => supd acc kv.1 (serialize_value kv.2))
    (combinedArgsPos param_names args 0 [])

/-- The `span_type` tag: `async_generator` when the method is an async
generator function, else `async` when it is a coroutine function, else
`sync`. -/
def spanTypeName (is_async is_async_gen : Bool) : String :=
  if is_async_gen then "async_generator" else if is_async then "async" else "sync"

/-- Comma-separated `'key': repr(value)` renderings of the entries of a
string-keyed dict, for its `str()`. -/
def argsEntriesText : List (String × Value) → String
  | [] => ""
  | [(k, v)] => "\x27" ++ k ++ "\x27: " ++ pyRepr v
  | (k, v) :: rest => "\x27" ++ k ++ "\x27: " ++ pyRepr v ++ ", " ++ argsEntriesText rest

/-- Python `str` of the string-keyed `combined_args` dict. -/
def argsText (l : List (String × Value)) : String :=
  "\x7b" ++ argsEntriesText l ++ "\x7d"

/-- Function `create_span_context` (lines 49-74): from the receiver's runtime class
name (`self.__class__.__name__`), the introspected method and the call's
arguments, the triple of class name, method name and the seeded span
attribute set. `param_names` drops the first declared parameter (the
receiver); `__args__` holds `str(combined_args)`. -/
def create_span_context (selfClass : String) (method : MethodSig)
    (is_async is_async_gen : Bool) (args : List Value)
    (kwargs : List (String × Value)) :
    String × String × List (String × Value) :=
  let class_name := selfClass
  let method_name := method.name
  let span_type := spanTypeName is_async is_async_gen
  let param_names := method.params.tail
  let combined_args := combinedArgs param_names args kwargs
  let span_attributes : List (String × Value) :=
    [("__autotraced__", Value.bool true),
     ("__class__", Value.str class_name),
     ("__method__", Value.str method_name),
     ("__type__", Value.str span_type),
     ("__args__", Value.str (argsText combined_args))]
  (class_name, method_name, span_attributes)

/-- Function `sync_wrapper` (lines 108-120): open the span named
`{class_name}.{method_name}` with the seeded attributes, call the
original method, on normal return set `output` to the serialized result
and return it, on an exception re-raise it unchanged (no attribute is
recorded); the span closes on either exit of the `with` block. The pair
is the call's outcome and the span events performed. -/
def sync_wrapper (selfClass : String) (method : MethodSig) (impl : Impl)
    (args : List Value) (kwargs : List (String × Value)) :
    Except PyErr Value × List SpanEvent :=
  let ctx := create_span_context selfClass method false false args kwargs
  let spanName := ctx.1 ++ "." ++ ctx.2.1
  match impl args kwargs with
  | Except.ok result =>
    (Except.ok result,
      [SpanEvent.openSpan spanName ctx.2.2,
       SpanEvent.setAttribute "output" (serialize_value result),
       SpanEvent.closeSpan])
  | Except.error e =>
    (Except.error e,
      [SpanEvent.openSpan spanName ctx.2.2, SpanEvent.closeSpan])

/-- Function `async_wrapper` (lines 93-106): as `sync_wrapper`, except the original
call is awaited and, on an exception, `error` is set to `str(e)` before
the same exception is re-raised. -/
def async_wrapper (selfClass : String) (method : MethodSig) (impl : Impl)
    (args : List Value) (kwargs : List (String × Value)) :
    Except PyErr Value × List SpanEvent :=
  let ctx := create_span_context selfClass method true false args kwargs
  let spanName := ctx.1 ++ "." ++ ctx.2.1
  match impl args kwargs with
  | Except.ok result =>
    (Except.ok result,
      [SpanEvent.openSpan spanName ctx.2.2,
       SpanEvent.setAttribute "output" (serialize_value result),
       SpanEvent.closeSpan])
  | Except.error e =>
    (Except.error e,
      [SpanEvent.openSpan spanName ctx.2.2,
       SpanEvent.setAttribute "error" (Value.str e.msg),
       SpanEvent.closeSpan])

/-- The Python int of a chunk counter. -/
def intVal (n : Nat) : Value := Value.int (Int.ofNat n)

/-- The outcome of one `anext` on an async generator: a yielded item, a
normal end of iteration (`StopAsyncIteration`), or an exception
propagating out of the generator. -/
inductive AGenOut where
  | yielded (v : Value)
  | stopIteration
  | raised (e : PyErr)

/-- The suspension state of an `async_gen_wrapper` generator. The
underlying generator is observed by the items it has yet to yield
(`pending`) and, once those are exhausted, whether it completes normally
(`final = none`) or raises. `notStarted`: the wrapper was called but its
body has not run (async generator bodies are lazy). `suspendedAtYield`:
the body is parked at `yield item`; `count` holds the increments executed
so far — the `count += 1` for the item just yielded runs only when the
consumer resumes the generator, since it follows the `yield`. -/
inductive AGenState where
  | notStarted (pending : List Value) (final : Option PyErr)
  | suspendedAtYield (pending : List Value) (final : Option PyErr) (count : Nat)
  | finished

/-- An `async_gen_wrapper` generator object: the span name and attributes
its body will open its span with, and its suspension state. -/
structure AGen where
  spanName : String
  attributes : List (String × Value)
  state : AGenState

/-- Function `async_gen_wrapper` (lines 76-91) called on a receiver and arguments:
this only creates the generator object — the body (and with it
`create_span_context` and the span opening) runs on the first resumption.
`create_span_context` is pure, so its result is computed here and the
open-span event is emitted by the first `anext`. -/
def async_gen_wrapper (selfClass : String) (method : MethodSig)
    (items : List Value) (final : Option PyErr) (args : List Value)
    (kwargs : List (String × Value)) : AGen :=
  let ctx := create_span_context selfClass method false true args kwargs
  ⟨ctx.1 ++ "." ++ ctx.2.1, ctx.2.2, AGenState.notStarted items final⟩

/-- One `anext` on the wrapper generator. First resumption: the body
enters the `with` block (opening the span), starts the `async for`, and
either parks at `yield` on the first item or — when the underlying
generator finishes at once — runs the `finally` (`chunk_count` is set to
the current count) and closes the span, ending with `StopAsyncIteration`
or the underlying exception. Later resumptions: the `count += 1` after
the `yield` runs first, then the loop asks the underlying generator for
its next item and proceeds the same way. -/
def anext (g : AGen) : AGen × AGenOut × List SpanEvent :=
  match g.state with
  | AGenState.notStarted pending final =>
    match pending with
    | i :: rest =>
      (⟨g.spanName, g.attributes, AGenState.suspendedAtYield rest final 0⟩,
       AGenOut.yielded i,
       [SpanEvent.openSpan g.spanName g.attributes])
    | [] =>
      (⟨g.spanName, g.attributes, AGenState.finished⟩,
       match final with
       | Option.none => AGenOut.stopIteration
       | some e => AGenOut.raised e,
       [SpanEvent.openSpan g.spanName g.attributes,
        SpanEvent.setAttribute "chunk_count" (intVal 0),
        SpanEvent.closeSpan])
  | AGenState.suspendedAtYield pending final count =>
    match pending with
    | i :: rest =>
      (⟨g.spanName, g.attributes, AGenState.suspendedAtYield rest final (count + 1)⟩,
       AGenOut.yielded i, [])
    | [] =>
      (⟨g.spanName, g.attributes, AGenState.finished⟩,
       match final with
       | Option.none => AGenOut.stopIteration
       | some e => AGenOut.raised e,
       [SpanEvent.setAttribute "chunk_count" (intVal (count + 1)),
        SpanEvent.closeSpan])
  | AGenState.finished => (g, AGenOut.stopIteration, [])

/-- Method `aclose` on the wrapper generator (what a consumer that stops
iterating triggers, directly or through garbage collection):
`GeneratorExit` is thrown at the parked `yield`, so the `finally` sets
`chunk_count` to the count incremented so far and the `with` block exit
closes the span. A never-started generator runs no body at all, and a
finished one does nothing. -/
def aclose (g : AGen) : AGen × List SpanEvent :=
  match g.state with
  | AGenState.suspendedAtYield _ _ count =>
    (⟨g.spanName, g.attributes, AGenState.finished⟩,
     [SpanEvent.setAttribute "chunk_count" (intVal count),
      SpanEvent.closeSpan])
  | AGenState.notStarted _ _ =>
    (⟨g.spanName, g.attributes, AGenState.finished⟩, [])
  | AGenState.finished => (g, [])

/-- A consumer performing up to `n` `anext` calls, collecting the yielded
items and the span events, and stopping early when iteration ends. -/
def consume : AGen → Nat → AGen × List Value × List SpanEvent
  | g, 0 => (g, [], [])
  | g, Nat.succ n =>
    match anext g with
    | (g1, AGenOut.yielded v, evs) =>
      match consume g1 n with
      | (g2, outs, evs2) => (g2, v :: outs, evs ++ evs2)
    | (g1, _, evs) => (g1, [], evs)

/-- A consumer iterating a wrapped streaming method to exhaustion (the
underlying generator yields `items` and completes normally): the items it
receives and the span events performed. -/
def iterateToExhaustion (selfClass : String) (method : MethodSig)
    (items : List Value) (args : List Value)
    (kwargs : List (String × Value)) : List Value × List SpanEvent :=
  let r := consume (async_gen_wrapper selfClass method items Option.none args kwargs)
    (items.length + 1)
  (r.2.1, r.2.2)

/-- A consumer performing `k` `anext` calls on a wrapped streaming method
and then closing the generator (early cancellation): the items it
received and the span events performed. -/
def cancelAfter (selfClass : String) (method : MethodSig) (items : List Value)
    (args : List Value) (kwargs : List (String × Value)) (k : Nat) :
    List Value × List SpanEvent :=
  let r := consume (async_gen_wrapper selfClass method items Option.none args kwargs) k
  let c := aclose r.1
  (r.2.1, r.2.2 ++ c.2)

/-- The calling convention `trace_method` detects once per method:
`asyncio.iscoroutinefunction` (async), `inspect.isasyncgenfunction`
(async generator), or neither (sync). -/
inductive CallKind where
  | sync
  | async
  | asyncGen

/-- A Python function object as the binder sees it: either one declared
directly in a class body, or a wrapper `trace_method` returned — the
wrapper is itself a function of the convention it was selected for
(`sync_wrapper` is a plain `def`, `async_wrapper` an `async def`,
`async_gen_wrapper` an `async def` generator). -/
inductive PyFn where
  | declared (name : String) (params : List String) (kind : CallKind)
  | traced (kind : CallKind) (original : PyFn)

/-- The calling convention of a function, as the introspection in
`trace_method` observes it. -/
def fnKind : PyFn → CallKind
  | PyFn.declared _ _ k => k
  | PyFn.traced k _ => k

/-- How many traced wrappers sit around the declared function. -/
def wrapDepth : PyFn → Nat
  | PyFn.declared _ _ _ => 0
  | PyFn.traced _ f => wrapDepth f + 1

/-- Function `trace_method` (lines 43-127): detect the method's calling convention
once, and return the wrapper of that convention closed over the original
method. -/
def trace_method (method : PyFn) : PyFn :=
  PyFn.traced (fnKind method) method

/-- An entry of a class body's namespace (`vars(cls)`): a function
(`inspect.isfunction` is true — the wrappers, being plain functions,
also satisfy it) or any other attribute (class variables, properties,
staticmethod/classmethod objects, ...). -/
inductive ClassAttr where
  | fn (f : PyFn)
  | nonFunction (tag : String)

/-- A Python class as the binder manipulates it: its name, its own
namespace (`vars(cls)`, in definition order), and whether the
`__init_subclass__` hook installed by `trace_protocol` is reachable from
it — the hook is set on the decorated base as a classmethod, so subclass
creation finds it through the method-resolution order of every
descendant. -/
structure PyClass where
  name : String
  dict : List (String × ClassAttr)
  hookInstalled : Bool

/-- First-match lookup in a string-keyed association list (class bodies
and attribute sets have unique keys, so first match is the match). -/
def alookup {β : Type} (n : String) : List (String × β) → Option β
  | [] => Option.none
  | (k, v) :: rest => if k = n then some v else alookup n rest

/-- Python `name.startswith("_")`: whether the first character is the
internal-naming marker. -/
def startsWithUnderscore (n : String) : Bool :=
  match n.data with
  | [] => false
  | c :: _ => c = '_'

/-- The loop body of the installed `__init_subclass__` (lines 135-137):
for each name in `vars(cls_child)`, a function whose name does not start
with an underscore is replaced (`setattr`, which keeps its position) by
`trace_method` of it; every other attribute is left as it is. -/
def initSubclassBody : List (String × ClassAttr) → List (String × ClassAttr)
  | [] => []
  | (n, ClassAttr.fn f) :: rest =>
    (if startsWithUnderscore n then (n, ClassAttr.fn f)
     else (n, ClassAttr.fn (trace_method f))) :: initSubclassBody rest
  | e :: rest => e :: initSubclassBody rest

/-- Decorator `trace_protocol` (lines 37-141): sets `cls.__init_subclass__` to the
wrapping hook (chaining any prior hook, which stays in effect) and
returns the same class — its name and its own namespace are untouched. -/
def trace_protocol (cls : PyClass) : PyClass :=
  { cls with hookInstalled := true }

/-- Declaring `class Child(parent): decls` — at the moment the class is
defined, the `__init_subclass__` found through the parent runs once on
the new class: when the trace hook is reachable it wraps the child's own
directly-declared public functions; otherwise the namespace is kept as
declared. The hook stays reachable from the child, so the wrapping
recurs transitively for its own future subclasses. -/
def defineSubclass (parent : PyClass) (name : String)
    (decls : List (String × ClassAttr)) : PyClass :=
  { name := name,
    dict := if parent.hookInstalled then initSubclassBody decls else decls,
    hookInstalled := parent.hookInstalled }

/-- Attribute lookup along a method-resolution order: the first class
whose own namespace binds the name provides the attribute. -/
def mroLookup (n : String) : List PyClass → Option ClassAttr
  | [] => Option.none
  | c :: rest =>
    match alookup n c.dict with
    | some a => some a
    | Option.none => mroLookup n rest

/-- Calling a synchronous function attribute on a receiver: a plain
declared function just runs its body — no tracing code executes, so no
span event is performed; a traced function runs `sync_wrapper`. -/
def callSyncFn (f : PyFn) (selfClass : String) (method : MethodSig)
    (impl : Impl) (args : List Value) (kwargs : List (String × Value)) :
    Except PyErr Value × List SpanEvent :=
  match f with
  | PyFn.declared _ _ _ => (impl args kwargs, [])
  | PyFn.traced _ _ => sync_wrapper selfClass method impl args kwargs

/-- Lookup of a string key in a dict held as entry list. -/
def dictLookup (s : String) : List (Value × Value) → Option Value
  | [] => Option.none
  | (e, v) :: rest => if keyMatches e s then some v else dictLookup s rest

/-- The entry list of a dict value (and nothing for any other value). -/
def dictEntriesOf : Value → List (Value × Value)
  | Value.dict entries => entries
  | _ => []

/-- The spec's reading of a mapping's serialization at one key: the value
of the last (later-iterated wins) entry whose key stringifies to `s`. -/
def lastWrite (s : String) : List (String × Value) → Option Value
  | [] => Option.none
  | (k, v) :: rest =>
    match lastWrite s rest with
    | some w => some w
    | Option.none => if k = s then some v else Option.none

/-- The concrete scenario's method: `add(self, a, b)`, synchronous. -/
def addSig : MethodSig := ⟨"add", ["self", "a", "b"]⟩

/-- The concrete scenario's body: `return a + b` on two ints. -/
def addImpl : Impl := fun args _ =>
  match args with
  | [Value.int a, Value.int b] => Except.ok (Value.int (a + b))
  | _ => Except.error ⟨"TypeError", "unsupported operands"⟩

/-- A body that raises a domain error with message `not found`. -/
def failImpl : Impl := fun _ _ => Except.error ⟨"ValueError", "not found"⟩

/-- A streaming method's signature: `stream(self)`. -/
def streamSig : MethodSig := ⟨"stream", ["self"]⟩

/-- A model whose `model_dump()` carries a `datetime` field — its export
is returned by `serialize_value` as-is. -/
def badModel : Value := Value.model [("ts", Value.datetime "2025-01-01 00:00:00")]

/-- A decorated base class with an empty body. -/
def baseA : PyClass := trace_protocol ⟨"A", [], false⟩

/-- A public sync method declared on the first subclass. -/
def fooFn : PyFn := PyFn.declared "foo" ["self"] CallKind.sync

/-- A public async method declared on the second subclass. -/
def barFn : PyFn := PyFn.declared "bar" ["self"] CallKind.async

/-- An internally-named method. -/
def hiddenFn : PyFn := PyFn.declared "_hidden" ["self"] CallKind.sync

/-- A key matches a string exactly when it is that string. -/
theorem keyMatches_iff (e : Value) (k : String) :
    keyMatches e k = true ↔ e = Value.str k := by
  cases e <;> simp [keyMatches]

/-- Looking up `s` after inserting key `k`: the inserted value when
`k = s`, the previous binding otherwise. -/
theorem dictLookup_sinsert (l : List (Value × Value)) (k : String) (v : Value)
    (s : String) :
    dictLookup s (sinsert l k v) = if k = s then some v else dictLookup s l := by
  induction l with
  | nil => simp [sinsert, dictLookup, keyMatches]
  | cons e rest ih =>
    obtain ⟨ek, ev⟩ := e
    by_cases h1 : keyMatches ek k = true
    · rw [keyMatches_iff] at h1
      subst h1
      by_cases h2 : k = s <;> simp [sinsert, dictLookup, keyMatches, h2]
    · by_cases h2 : keyMatches ek s = true
      · rw [keyMatches_iff] at h2
        subst h2
        have hks : ¬ k = s := by
          intro hh
          subst hh
          simp [keyMatches] at h1
        have hsk : ¬ s = k := fun hh => hks hh.symm
        simp [sinsert, dictLookup, keyMatches, hsk, hks]
      · simp [sinsert, dictLookup, h1, h2, ih]

/-- Folding insertions over a pair list: the last write to `s` among the
pairs wins, else the accumulator's binding stands. -/
theorem dictLookup_foldl (ps : List (String × Value)) :
    ∀ (acc : List (Value × Value)) (s : String),
    dictLookup s (ps.foldl (fun a kv => sinsert a kv.1 kv.2) acc) =
      match lastWrite s ps with
      | some w => some w
      | Option.none => dictLookup s acc := by
  induction ps with
  | nil =>
    intro acc s
    simp [lastWrite]
  | cons hd tl ih =>
    intro acc s
    obtain ⟨k, v⟩ := hd
    rw [List.foldl_cons, ih]
    cases hlw : lastWrite s tl with
    | none =>
      simp only [lastWrite, hlw, dictLookup_sinsert]
      by_cases hk : k = s <;> simp [hk]
    | some w => simp [lastWrite, hlw]

/-- Unfolding lemma: `serializePairs` lists exactly `(str(k), serialize_value(v))` for the
entries in order. -/
theorem serializePairs_eq_map (m : List (Value × Value)) :
    serializePairs m = m.map fun kv => (pyStr kv.1, serialize_value kv.2) := by
  induction m with
  | nil => rfl
  | cons e rest ih =>
    obtain ⟨k, v⟩ := e
    simp [serializePairs, ih]

/-- Lemma: `lastWrite` finds a value exactly when some pair carries the key. -/
theorem lastWrite_isSome (s : String) (ps : List (String × Value)) :
    (lastWrite s ps).isSome = true ↔ s ∈ ps.map Prod.fst := by
  induction ps with
  | nil => simp [lastWrite]
  | cons hd tl ih =>
    obtain ⟨k, v⟩ := hd
    simp only [lastWrite, List.map_cons, List.mem_cons]
    cases hlw : lastWrite s tl with
    | none =>
      simp only [hlw, Option.isSome_none, Bool.false_eq_true, false_iff] at ih
      by_cases hk : k = s
      · simp [hk]
      · have : ¬ s = k := fun hh => hk hh.symm
        simp [hk, ih, this]
    | some w =>
      simp only [hlw, Option.isSome_some, true_iff] at ih
      simp [ih]

/-- Inserting a string key and a JSON value into a dict of JSON pairs
keeps every entry a string-keyed JSON pair. -/
theorem allJsonPairs_sinsert (l : List (Value × Value)) (k : String) (v : Value)
    (hl : allJsonPairs l = true) (hv : IsJson v = true) :
    allJsonPairs (sinsert l k v) = true := by
  induction l with
  | nil => simp [sinsert, allJsonPairs, isStrVal, hv]
  | cons e rest ih =>
    obtain ⟨ek, ev⟩ := e
    simp only [allJsonPairs, Bool.and_eq_true] at hl
    obtain ⟨⟨hks, hev⟩, hrest⟩ := hl
    by_cases h1 : keyMatches ek k = true
    · simp [sinsert, h1, allJsonPairs, hks, hv, hrest]
    · simp [sinsert, h1, allJsonPairs, hks, hev, ih hrest]

/-- Building a dict from string-keyed pairs with JSON values yields a
dict of string-keyed JSON pairs. -/
theorem allJsonPairs_dictFromPairs_go (ps : List (String × Value)) :
    ∀ (acc : List (Value × Value)), allJsonPairs acc = true →
    (∀ p ∈ ps, IsJson p.2 = true) →
    allJsonPairs (ps.foldl (fun a kv => sinsert a kv.1 kv.2) acc) = true := by
  induction ps with
  | nil =>
    intro acc hacc _
    simpa using hacc
  | cons hd tl ih =>
    intro acc hacc hps
    rw [List.foldl_cons]
    apply ih
    · exact allJsonPairs_sinsert _ _ _ hacc (hps hd (by simp))
    · intro p hp
      exact hps p (by simp [hp])

/-- Lemma: `dictFromPairs` of string-keyed pairs with JSON values is a list of
string-keyed JSON pairs. -/
theorem allJsonPairs_dictFromPairs (ps : List (String × Value))
    (h : ∀ p ∈ ps, IsJson p.2 = true) :
    allJsonPairs (dictFromPairs ps) = true :=
  allJsonPairs_dictFromPairs_go ps [] rfl h

/-- Pointwise JSON-ness of pair values from JSON-ness of the mapped
second components. -/
theorem allJson_map_snd (ps : List (String × Value))
    (h : allJson (ps.map Prod.snd) = true) :
    ∀ p ∈ ps, IsJson p.2 = true := by
  induction ps with
  | nil => intro p hp; simp at hp
  | cons hd tl ih =>
    intro p hp
    simp only [List.map_cons, allJson, Bool.and_eq_true] at h
    rcases List.mem_cons.mp hp with hh | hh
    · subst hh; exact h.1
    · exact ih h.2 p hh

mutual

/-- On inputs without models, `serialize_value` lands in the JSON
fragment. -/
theorem isJson_serialize : ∀ (v : Value), ModelFree v = true →
    IsJson (serialize_value v) = true
  | Value.none, _ => rfl
  | Value.bool _, _ => rfl
  | Value.int _, _ => rfl
  | Value.float _, _ => rfl
  | Value.str _, _ => rfl
  | Value.model _, h => by simp [ModelFree] at h
  | Value.list items, h =>
    allJson_serializeItems items (by simpa [ModelFree] using h)
  | Value.tuple items, h =>
    allJson_serializeItems items (by simpa [ModelFree] using h)
  | Value.set items, h =>
    allJson_serializeItems items (by simpa [ModelFree] using h)
  | Value.dict entries, h =>
    allJsonPairs_dictFromPairs _
      (allJson_map_snd _ (pairsSndJson_serializePairs entries
        (by simpa [ModelFree] using h)))
  | Value.datetime _, _ => rfl
  | Value.uuid _, _ => rfl
  | Value.other _, _ => rfl

/-- Elementwise JSON-ness of serialized sequences without models. -/
theorem allJson_serializeItems : ∀ (l : List Value), allModelFree l = true →
    allJson (serializeItems l) = true
  | [], _ => rfl
  | v :: rest, h => by
    simp only [serializeItems, allJson, Bool.and_eq_true]
    simp only [allModelFree, Bool.and_eq_true] at h
    exact ⟨isJson_serialize v h.1, allJson_serializeItems rest h.2⟩

/-- JSON-ness of the serialized values of dict entries without models. -/
theorem pairsSndJson_serializePairs : ∀ (l : List (Value × Value)),
    allModelFreePairs l = true →
    allJson ((serializePairs l).map Prod.snd) = true
  | [], _ => rfl
  | (k, v) :: rest, h => by
    simp only [serializePairs, List.map_cons, allJson, Bool.and_eq_true]
    simp only [allModelFreePairs, Bool.and_eq_true] at h
    exact ⟨isJson_serialize v h.1.2, pairsSndJson_serializePairs rest h.2⟩

end

/-- C5 counterexample: `serialize_value` applied to a model whose
`model_dump()` carries a `datetime` field returns that field map as-is —
a dict still holding a raw `datetime` — so the result is not
JSON-representable, against the claim that every input yields a
JSON-representable value. -/
theorem serialize_value_model_counterexample :
    serialize_value badModel =
      Value.dict [(Value.str "ts", Value.datetime "2025-01-01 00:00:00")] ∧
    IsJson (serialize_value badModel) = false :=
  ⟨rfl, rfl⟩

/-- C5 (amended): on every (finite) input, `serialize_value` terminates
and returns a value without raising; a value matching no earlier rule
degrades to its generic string representation; and the result is
JSON-representable whenever the input contains no model — a model's
field-map export is returned as-is and may hold non-JSON members. -/
theorem serialize_value_total_degrade (v : Value) (t : String)
    (h : ModelFree v = true) :
    IsJson (serialize_value v) = true ∧
    serialize_value (Value.other t) = Value.str t :=
  ⟨isJson_serialize v h, rfl⟩

/-- C5 witness: a concrete model-free value serializes into the JSON
fragment, and a concrete fallback object degrades to its string form. -/
theorem serialize_value_total_degrade_witness :
    IsJson (serialize_value (Value.list [Value.int 1, Value.other "obj",
      Value.dict [(Value.int 7, Value.uuid "u")]])) = true ∧
    serialize_value (Value.other "obj") = Value.str "obj" :=
  serialize_value_total_degrade
    (Value.list [Value.int 1, Value.other "obj",
      Value.dict [(Value.int 7, Value.uuid "u")]]) "obj" rfl

/-- C9: serializing a mapping yields an object whose bindings are looked
up by the string form of the original keys — the value found at `s` is
`serialize_value` of the value of the last entry whose key stringifies
to `s` (later-iterated entries win), and a key is present in the output
exactly when some original key has string form `s`. -/
theorem serialize_dict_last_write (m : List (Value × Value)) (s : String) :
    dictLookup s (dictEntriesOf (serialize_value (Value.dict m))) =
      lastWrite s (m.map fun kv => (pyStr kv.1, serialize_value kv.2)) ∧
    ((dictLookup s (dictEntriesOf (serialize_value (Value.dict m)))).isSome = true ↔
      s ∈ m.map fun kv => pyStr kv.1) := by
  have h1 : dictEntriesOf (serialize_value (Value.dict m)) =
      dictFromPairs (m.map fun kv => (pyStr kv.1, serialize_value kv.2)) := by
    simp [serialize_value, dictEntriesOf, serializePairs_eq_map]
  have h2 : dictLookup s
      (dictFromPairs (m.map fun kv => (pyStr kv.1, serialize_value kv.2))) =
      lastWrite s (m.map fun kv => (pyStr kv.1, serialize_value kv.2)) := by
    rw [dictFromPairs, dictLookup_foldl]
    cases lastWrite s (m.map fun kv => (pyStr kv.1, serialize_value kv.2)) <;>
      simp [dictLookup]
  constructor
  · rw [h1, h2]
  · rw [h1, h2, lastWrite_isSome]
    simp [List.map_map, Function.comp]

/-- The first component of the span context is the receiver's class
name. -/
theorem create_span_context_class (selfClass : String) (method : MethodSig)
    (a g : Bool) (args : List Value) (kwargs : List (String × Value)) :
    (create_span_context selfClass method a g args kwargs).1 = selfClass := rfl

/-- The second component of the span context is the method's name. -/
theorem create_span_context_method (selfClass : String) (method : MethodSig)
    (a g : Bool) (args : List Value) (kwargs : List (String × Value)) :
    (create_span_context selfClass method a g args kwargs).2.1 = method.name := rfl

/-- C1: for a synchronous method whose body returns normally on given
receiver and arguments, the traced wrapper returns exactly that value —
wrapping changes no return value in the non-error case. -/
theorem sync_wrapper_transparent (selfClass : String) (method : MethodSig)
    (impl : Impl) (args : List Value) (kwargs : List (String × Value))
    (result : Value) (h : impl args kwargs = Except.ok result) :
    (sync_wrapper selfClass method impl args kwargs).1 = Except.ok result := by
  simp [sync_wrapper, h]

/-- C1 witness: the wrapped `add` called on `(2, 3)` returns `5`, the
unwrapped body's value. -/
theorem sync_wrapper_transparent_witness :
    (sync_wrapper "X" addSig addImpl [Value.int 2, Value.int 3] []).1 =
      Except.ok (Value.int 5) :=
  sync_wrapper_transparent "X" addSig addImpl [Value.int 2, Value.int 3] []
    (Value.int 5) rfl

/-- C2: a wrapped method whose body raises re-raises the identical error
object to the caller; before re-raising, the async single-result wrapper
sets an `error` attribute to the error's string form, while the sync
wrapper records no `error` attribute (its span just closes); an async
generator whose underlying generator raises likewise propagates the
identical error. -/
theorem wrapper_error_transparent (selfClass : String) (method : MethodSig)
    (impl : Impl) (args : List Value) (kwargs : List (String × Value))
    (e : PyErr) (h : impl args kwargs = Except.error e) :
    (sync_wrapper selfClass method impl args kwargs).1 = Except.error e ∧
    (async_wrapper selfClass method impl args kwargs).1 = Except.error e ∧
    setValuesOf "error" (sync_wrapper selfClass method impl args kwargs).2 = [] ∧
    setValuesOf "error" (async_wrapper selfClass method impl args kwargs).2 =
      [Value.str e.msg] ∧
    (sync_wrapper selfClass method impl args kwargs).2 =
      [SpanEvent.openSpan (selfClass ++ "." ++ method.name)
         (create_span_context selfClass method false false args kwargs).2.2,
       SpanEvent.closeSpan] ∧
    (async_wrapper selfClass method impl args kwargs).2 =
      [SpanEvent.openSpan (selfClass ++ "." ++ method.name)
         (create_span_context selfClass method true false args kwargs).2.2,
       SpanEvent.setAttribute "error" (Value.str e.msg),
       SpanEvent.closeSpan] ∧
    (anext (async_gen_wrapper selfClass method [] (some e) args kwargs)).2.1 =
      AGenOut.raised e := by
  refine ⟨?_, ?_, ?_, ?_, ?_, ?_, ?_⟩ <;>
    simp [sync_wrapper, async_wrapper, h, setValuesOf, anext, async_gen_wrapper,
      create_span_context_class, create_span_context_method]

/-- C2 witness: a body raising `ValueError("not found")` propagates that
same error through both wrappers, and the async wrapper records
`error == "not found"`. -/
theorem wrapper_error_transparent_witness :
    (sync_wrapper "X" addSig failImpl [] []).1 =
      Except.error ⟨"ValueError", "not found"⟩ ∧
    (async_wrapper "X" addSig failImpl [] []).1 =
      Except.error ⟨"ValueError", "not found"⟩ ∧
    setValuesOf "error" (async_wrapper "X" addSig failImpl [] []).2 =
      [Value.str "not found"] :=
  ⟨(wrapper_error_transparent "X" addSig failImpl [] []
      ⟨"ValueError", "not found"⟩ rfl).1,
   (wrapper_error_transparent "X" addSig failImpl [] []
      ⟨"ValueError", "not found"⟩ rfl).2.1,
   (wrapper_error_transparent "X" addSig failImpl [] []
      ⟨"ValueError", "not found"⟩ rfl).2.2.2.1⟩

/-- C6: the wrapped synchronous `add(a, b)` on class `X` called as
`add(2, 3)` opens a span named `X.add` whose attributes carry
`__method__ == "add"` and the argument mapping rendered from
`\x7b"a": 2, "b": 3\x7d` (positional arguments matched to declared
parameter names, receiver skipped), sets `output` to the serialized `5`
on return, and returns `5`. -/
theorem add_scenario_span :
    (sync_wrapper "X" addSig addImpl [Value.int 2, Value.int 3] []).1 =
      Except.ok (Value.int 5) ∧
    combinedArgs addSig.params.tail [Value.int 2, Value.int 3] [] =
      [("a", Value.int 2), ("b", Value.int 3)] ∧
    (sync_wrapper "X" addSig addImpl [Value.int 2, Value.int 3] []).2 =
      [SpanEvent.openSpan "X.add"
        [("__autotraced__", Value.bool true),
         ("__class__", Value.str "X"),
         ("__method__", Value.str "add"),
         ("__type__", Value.str "sync"),
         ("__args__", Value.str "\x7b\x27a\x27: 2, \x27b\x27: 3\x7d")],
       SpanEvent.setAttribute "output" (Value.int 5),
       SpanEvent.closeSpan] :=
  ⟨rfl, rfl, rfl⟩

/-- One consumer step: `consume` for one more `anext`. -/
theorem consume_succ (g : AGen) (n : Nat) :
    consume g (n + 1) =
      match anext g with
      | (g1, AGenOut.yielded v, evs) =>
        match consume g1 n with
        | (g2, outs, evs2) => (g2, v :: outs, evs ++ evs2)
      | (g1, _, evs) => (g1, [], evs) := rfl

/-- Driving a generator parked at a yield to exhaustion: the pending
items come out in order, and the final resumption runs the `finally`,
recording `chunk_count` as the count so far plus one increment per
remaining step. -/
theorem consume_susp_exhaust (sn : String) (attrs : List (String × Value))
    (pending : List Value) (count : Nat) :
    consume ⟨sn, attrs, AGenState.suspendedAtYield pending Option.none count⟩
      (pending.length + 1) =
      (⟨sn, attrs, AGenState.finished⟩, pending,
       [SpanEvent.setAttribute "chunk_count"
          (intVal (count + pending.length + 1)),
        SpanEvent.closeSpan]) := by
  induction pending generalizing count with
  | nil => rfl
  | cons p rest ih =>
    have harith : count + 1 + rest.length + 1 = count + (rest.length + 1) + 1 := by
      omega
    rw [show (p :: rest).length + 1 = rest.length + 1 + 1 from by simp,
      consume_succ]
    simp only [anext]
    rw [ih, harith]
    simp

/-- C4: a wrapped streaming method whose underlying generator yields its
items and completes normally, iterated to exhaustion by the consumer,
re-yields every item unchanged and in order, and its finalized span
records `chunk_count` equal to the number of items, the span being
opened once and closed once. -/
theorem async_gen_exhaust_yields_all (selfClass : String) (method : MethodSig)
    (items : List Value) (args : List Value)
    (kwargs : List (String × Value)) :
    iterateToExhaustion selfClass method items args kwargs =
      (items,
       [SpanEvent.openSpan (selfClass ++ "." ++ method.name)
          (create_span_context selfClass method false true args kwargs).2.2,
        SpanEvent.setAttribute "chunk_count" (intVal items.length),
        SpanEvent.closeSpan]) := by
  cases items with
  | nil => rfl
  | cons i rest =>
    unfold iterateToExhaustion async_gen_wrapper
    rw [show (i :: rest).length + 1 = rest.length + 1 + 1 from by simp,
      consume_succ]
    simp only [anext]
    rw [consume_susp_exhaust]
    simp [create_span_context_class, create_span_context_method]

/-- Performing `k ≤ pending.length` resumptions on a parked generator:
the next `k` items come out, no span event fires, and the generator is
parked again with `k` more increments executed. -/
theorem consume_susp_take (sn : String) (attrs : List (String × Value))
    (pending : List Value) (final : Option PyErr) (count k : Nat)
    (h : k ≤ pending.length) :
    consume ⟨sn, attrs, AGenState.suspendedAtYield pending final count⟩ k =
      (⟨sn, attrs, AGenState.suspendedAtYield (pending.drop k) final (count + k)⟩,
       pending.take k, []) := by
  induction k generalizing pending count with
  | zero => simp [consume]
  | succ j ih =>
    cases pending with
    | nil => simp at h
    | cons p rest =>
      have hj : j ≤ rest.length := by
        simp only [List.length_cons] at h
        omega
      have harith : count + 1 + j = count + (j + 1) := by omega
      rw [consume_succ]
      simp only [anext]
      rw [ih rest (count + 1) hj, harith]
      simp

/-- C3 counterexample: a consumer that receives `k = 2` items of a
3-item stream and then closes the generator leaves `chunk_count` set to
`1`, not `2` — the claim that `chunk_count` equals the number of
consumed items fails at this input. -/
theorem async_gen_cancel_counterexample :
    (cancelAfter "X" streamSig [Value.int 1, Value.int 2, Value.int 3]
      [] [] 2).1 = [Value.int 1, Value.int 2] ∧
    setValuesOf "chunk_count"
      (cancelAfter "X" streamSig [Value.int 1, Value.int 2, Value.int 3]
        [] [] 2).2 = [intVal 1] ∧
    intVal 1 ≠ intVal 2 :=
  ⟨rfl, rfl, by simp [intVal]⟩

/-- C3 (amended): if the consumer of a wrapped streaming method stops
after consuming `k ≥ 1` of its items and closes the generator, the span
is still finalized — opened once, closed once — but `chunk_count` equals
`k - 1`, because the `count += 1` for the `k`-th item sits after the
`yield` and runs only on the next resumption, which the cancellation
forestalls. -/
theorem async_gen_cancel_chunk_count (selfClass : String) (method : MethodSig)
    (items : List Value) (args : List Value) (kwargs : List (String × Value))
    (k : Nat) (h1 : 1 ≤ k) (h2 : k ≤ items.length) :
    (cancelAfter selfClass method items args kwargs k).1 = items.take k ∧
    (cancelAfter selfClass method items args kwargs k).2 =
      [SpanEvent.openSpan (selfClass ++ "." ++ method.name)
         (create_span_context selfClass method false true args kwargs).2.2,
       SpanEvent.setAttribute "chunk_count" (intVal (k - 1)),
       SpanEvent.closeSpan] := by
  obtain ⟨j, rfl⟩ : ∃ j, k = j + 1 := ⟨k - 1, by omega⟩
  cases items with
  | nil => simp at h2
  | cons i rest =>
    have hj : j ≤ rest.length := by
      simp only [List.length_cons] at h2
      omega
    unfold cancelAfter async_gen_wrapper
    rw [consume_succ]
    simp only [anext]
    rw [consume_susp_take _ _ rest Option.none 0 j hj]
    simp [aclose, create_span_context_class, create_span_context_method,
      Nat.zero_add]

/-- C3 witness: cancelling a concrete 3-item stream after 2 received
items yields those 2 items, finalizes the span, and records
`chunk_count == 1`. -/
theorem async_gen_cancel_chunk_count_witness :
    (cancelAfter "Y" streamSig [Value.int 10, Value.int 20, Value.int 30]
      [] [] 2).1 =
      List.take 2 [Value.int 10, Value.int 20, Value.int 30] ∧
    (cancelAfter "Y" streamSig [Value.int 10, Value.int 20, Value.int 30]
      [] [] 2).2 =
      [SpanEvent.openSpan ("Y" ++ "." ++ streamSig.name)
         (create_span_context "Y" streamSig false true [] []).2.2,
       SpanEvent.setAttribute "chunk_count" (intVal (2 - 1)),
       SpanEvent.closeSpan] :=
  async_gen_cancel_chunk_count "Y" streamSig
    [Value.int 10, Value.int 20, Value.int 30] [] [] 2
    (by decide) (by decide)

/-- What the installed hook's loop does to one looked-up name: a public
function gets wrapped once, an underscore-named function and every
non-function attribute pass through unchanged. -/
theorem alookup_initSubclassBody (n : String)
    (decls : List (String × ClassAttr)) :
    alookup n (initSubclassBody decls) =
      match alookup n decls with
      | some (ClassAttr.fn f) =>
        some (if startsWithUnderscore n then ClassAttr.fn f
              else ClassAttr.fn (trace_method f))
      | some (ClassAttr.nonFunction t) => some (ClassAttr.nonFunction t)
      | Option.none => Option.none := by
  induction decls with
  | nil => rfl
  | cons hd tl ih =>
    obtain ⟨k, a⟩ := hd
    cases a with
    | fn f =>
      by_cases hu : startsWithUnderscore k = true
      · have hstep : initSubclassBody ((k, ClassAttr.fn f) :: tl) =
            (k, ClassAttr.fn f) :: initSubclassBody tl := by
          simp only [initSubclassBody, if_pos hu]
        rw [hstep]
        by_cases hk : k = n
        · subst hk
          simp [alookup, hu]
        · simp [alookup, hk, ih]
      · have hstep : initSubclassBody ((k, ClassAttr.fn f) :: tl) =
            (k, ClassAttr.fn (trace_method f)) :: initSubclassBody tl := by
          simp only [initSubclassBody, if_neg hu]
        rw [hstep]
        by_cases hk : k = n
        · subst hk
          simp [alookup, hu]
        · simp [alookup, hk, ih]
    | nonFunction t =>
      by_cases hk : k = n
      · subst hk
        simp [initSubclassBody, alookup]
      · simp [initSubclassBody, alookup, hk, ih]

/-- C7: under a decorated base `A`, defining `B extends A` and then
`C extends B` wraps, at the moment the declaring subclass is defined,
every public function directly declared on `B` and every public function
directly declared on `C`; a method `C` inherits from `B` without
redeclaring it resolves through the MRO to the attribute `B`'s binding
produced — wrapped exactly once around the declared function, never
re-wrapped by `C`'s binding step. -/
theorem subclass_methods_wrapped_once (A : PyClass)
    (hA : A.hookInstalled = true) (nB nC n m : String)
    (declsB declsC : List (String × ClassAttr)) (f g : PyFn)
    (hfB : alookup n declsB = some (ClassAttr.fn f))
    (hn : startsWithUnderscore n = false)
    (hgC : alookup m declsC = some (ClassAttr.fn g))
    (hm : startsWithUnderscore m = false)
    (hnC : alookup n declsC = Option.none) :
    alookup n (defineSubclass A nB declsB).dict =
      some (ClassAttr.fn (trace_method f)) ∧
    alookup m (defineSubclass (defineSubclass A nB declsB) nC declsC).dict =
      some (ClassAttr.fn (trace_method g)) ∧
    mroLookup n [defineSubclass (defineSubclass A nB declsB) nC declsC,
      defineSubclass A nB declsB, A] =
      some (ClassAttr.fn (trace_method f)) ∧
    wrapDepth (trace_method f) = wrapDepth f + 1 := by
  have hBdict : (defineSubclass A nB declsB).dict = initSubclassBody declsB := by
    simp [defineSubclass, hA]
  have hBhook : (defineSubclass A nB declsB).hookInstalled = true := by
    simp [defineSubclass, hA]
  have hCdict : (defineSubclass (defineSubclass A nB declsB) nC declsC).dict =
      initSubclassBody declsC := by
    simp [defineSubclass, hA]
  have h1 : alookup n (defineSubclass A nB declsB).dict =
      some (ClassAttr.fn (trace_method f)) := by
    rw [hBdict, alookup_initSubclassBody, hfB]
    simp [hn]
  have h2 : alookup m (defineSubclass (defineSubclass A nB declsB) nC declsC).dict =
      some (ClassAttr.fn (trace_method g)) := by
    rw [hCdict, alookup_initSubclassBody, hgC]
    simp [hm]
  have h3 : alookup n (defineSubclass (defineSubclass A nB declsB) nC declsC).dict =
      Option.none := by
    rw [hCdict, alookup_initSubclassBody, hnC]
  refine ⟨h1, h2, ?_, rfl⟩
  simp [mroLookup, h3, h1]

/-- C7 witness: under the concrete decorated base `A`, `B` declaring
public `foo` and `C` declaring public `bar` each get their own methods
wrapped at definition, and `foo` resolves on `C` to the singly-wrapped
attribute from `B`'s binding. -/
theorem subclass_methods_wrapped_once_witness :
    alookup "foo" (defineSubclass baseA "B" [("foo", ClassAttr.fn fooFn)]).dict =
      some (ClassAttr.fn (trace_method fooFn)) ∧
    alookup "bar" (defineSubclass (defineSubclass baseA "B"
        [("foo", ClassAttr.fn fooFn)]) "C" [("bar", ClassAttr.fn barFn)]).dict =
      some (ClassAttr.fn (trace_method barFn)) ∧
    mroLookup "foo" [defineSubclass (defineSubclass baseA "B"
        [("foo", ClassAttr.fn fooFn)]) "C" [("bar", ClassAttr.fn barFn)],
      defineSubclass baseA "B" [("foo", ClassAttr.fn fooFn)], baseA] =
      some (ClassAttr.fn (trace_method fooFn)) ∧
    wrapDepth (trace_method fooFn) = wrapDepth fooFn + 1 :=
  subclass_methods_wrapped_once baseA rfl "B" "C" "foo" "bar"
    [("foo", ClassAttr.fn fooFn)] [("bar", ClassAttr.fn barFn)] fooFn barFn
    rfl rfl rfl rfl rfl

/-- C8: an attribute whose name begins with an underscore is never
replaced by a traced wrapper — after any subclass definition, under a
decorated base or not, it is bound to the same unmodified attribute. -/
theorem private_attrs_not_wrapped (parent : PyClass) (nm n : String)
    (decls : List (String × ClassAttr)) (a : ClassAttr)
    (h1 : alookup n decls = some a) (h2 : startsWithUnderscore n = true) :
    alookup n (defineSubclass parent nm decls).dict = some a := by
  by_cases hp : parent.hookInstalled
  · have : (defineSubclass parent nm decls).dict = initSubclassBody decls := by
      simp [defineSubclass, hp]
    rw [this, alookup_initSubclassBody, h1]
    cases a with
    | fn f => simp [h2]
    | nonFunction t => rfl
  · simp [defineSubclass, hp, h1]

/-- C8 witness: `_hidden`, declared on a subclass of the concrete
decorated base, is still the same unwrapped function afterwards. -/
theorem private_attrs_not_wrapped_witness :
    alookup "_hidden" (defineSubclass baseA "B"
      [("_hidden", ClassAttr.fn hiddenFn)]).dict =
      some (ClassAttr.fn hiddenFn) :=
  private_attrs_not_wrapped baseA "B" "_hidden"
    [("_hidden", ClassAttr.fn hiddenFn)] (ClassAttr.fn hiddenFn) rfl rfl

/-- C10: `trace_protocol` changes only the subclass-creation hook of the
decorated base and returns the same class — name and own namespace are
untouched, so the base's directly-declared methods stay unwrapped, and a
plain declared function performs no span event when called; a subclass
defined under an undecorated base (e.g. one defined before decoration)
keeps its namespace as declared, while a subclass defined under the
decorated base gets the wrapping hook's transformation. -/
theorem trace_protocol_frame (c : PyClass) (nm name2 : String)
    (decls dict2 : List (String × ClassAttr)) (selfClass : String)
    (method : MethodSig) (impl : Impl) (args : List Value)
    (kwargs : List (String × Value)) (fname : String) (params : List String)
    (k : CallKind) :
    (trace_protocol c).name = c.name ∧
    (trace_protocol c).dict = c.dict ∧
    (trace_protocol c).hookInstalled = true ∧
    (defineSubclass ⟨name2, dict2, false⟩ nm decls).dict = decls ∧
    (defineSubclass (trace_protocol c) nm decls).dict = initSubclassBody decls ∧
    (callSyncFn (PyFn.declared fname params k) selfClass method impl args
      kwargs).2 = [] :=
  ⟨rfl, rfl, rfl, rfl, rfl, rfl⟩

end TraceProtocol
